import Mathlib

/-!
Shallow embedding of the sliding-window rate limiter in
`code_submission_safe.py` (class `RateLimiter`), together with proofs of the
behavioural properties claimed for it.

Modelling choices:
* Python timestamps (`time.time()` floats) are modelled as rationals `ℚ`;
  `max_requests` and `time_window` are Python ints, modelled as `ℤ`.
* The `defaultdict(deque)` map `self.requests` is modelled as a total
  function `String → Option (List ℚ)`: `none` means the key is absent,
  `some l` that the key is present with deque contents `l` (oldest first).
  A defaultdict read materialises the key, which the embedding reflects by
  storing the purged deque back under the key on every non-erroring path.
* `time.time()` is passed in explicitly as the argument `now` of each call.
* Python exceptions are modelled by an error type; a call returns the pair
  of its `Except` outcome and the post-call state (on the empty-identifier
  `ValueError` the state is returned unchanged, as the code raises before
  touching the map).
* The `threading.Lock` makes every call atomic; the embedding models each
  call as one atomic state transition, so any concurrent execution is one
  of the sequential interleavings expressible with `runChecks`.
-/

/-- A Python exception as raised by the source: `ValueError` with its
message, or `IndexError` (deque subscript on an empty deque). -/
inductive PyError where
  | valueError (msg : String)
  | indexError
deriving DecidableEq, Repr

/-- Python `int(x)` applied to a float/rational: truncation toward zero. -/
def pyInt (q : ℚ) : ℤ :=
  if q < 0 then ⌈q⌉ else ⌊q⌋

/-- State of one `RateLimiter` object: the configuration fixed by
`__init__` and the `self.requests` map.  The `threading.Lock` field has no
observable sequential content and is not represented. -/
structure RateLimiter where
  max_requests : ℤ
  time_window : ℤ
  requests : String → Option (List ℚ)

/-- Pointwise update of the identifier map. -/
def mapSet (m : String → Option (List ℚ)) (k : String) (v : Option (List ℚ)) :
    String → Option (List ℚ) :=
  fun x => if x = k then v else m x

/-- `RateLimiter.__init__`: validates that `max_requests` and `time_window`
are positive, raising `ValueError` otherwise, then builds the empty map. -/
def RateLimiter.init (max_requests time_window : ℤ) :
    Except PyError RateLimiter :=
  if max_requests ≤ 0 then
    .error (.valueError "max_requests must be greater than 0")
  else if time_window ≤ 0 then
    .error (.valueError "time_window must be greater than 0")
  else
    .ok { max_requests := max_requests, time_window := time_window,
          requests := fun _ => none }

/-- The `while` loop of `check_rate_limit`: pop entries from the left of the
deque while the deque is non-empty and its head satisfies
`now - head >= time_window`. -/
def purge (now : ℚ) (time_window : ℤ) : List ℚ → List ℚ
  | [] => []
  | t :: ts =>
      if (time_window : ℚ) ≤ now - t then purge now time_window ts
      else t :: ts

/-- `RateLimiter.check_rate_limit`.  Mirrors the source line by line:
reject `None`/empty identifiers with `ValueError`; purge expired entries of
`requests[identifier]` (the defaultdict access materialises the key); if
the purged length is `>= max_requests`, return
`(False, int(time_window - (now - oldest)) + 1)` without appending;
otherwise append `now` and return `(True, 0)`.  The second component of the
result is the post-call state. -/
def RateLimiter.check_rate_limit (rl : RateLimiter) (identifier : String)
    (now : ℚ) : Except PyError (Bool × ℤ) × RateLimiter :=
  if identifier = "" then
    (.error (.valueError "identifier cannot be None or empty"), rl)
  else
    let purged := purge now rl.time_window ((rl.requests identifier).getD [])
    if rl.max_requests ≤ (purged.length : ℤ) then
      match purged with
      | [] =>
          (.error .indexError,
           { rl with requests := mapSet rl.requests identifier (some purged) })
      | oldest :: _ =>
          (.ok (false, pyInt ((rl.time_window : ℚ) - (now - oldest)) + 1),
           { rl with requests := mapSet rl.requests identifier (some purged) })
    else
      (.ok (true, 0),
       { rl with requests :=
           mapSet rl.requests identifier (some (purged ++ [now])) })

/-- `RateLimiter.reset`: delete the identifier's entry if present. -/
def RateLimiter.reset (rl : RateLimiter) (identifier : String) : RateLimiter :=
  if (rl.requests identifier).isSome then
    { rl with requests := mapSet rl.requests identifier none }
  else rl

/-- Run a sequence of `check_rate_limit` calls for one identifier at the
given times, returning the list of outcomes and the final state. -/
def runChecks (rl : RateLimiter) (identifier : String) :
    List ℚ → List (Except PyError (Bool × ℤ)) × RateLimiter
  | [] => ([], rl)
  | t :: ts =>
      let step := rl.check_rate_limit identifier t
      let rest := runChecks step.2 identifier ts
      (step.1 :: rest.1, rest.2)

/-- States reachable from a successful construction by any sequence of
`check_rate_limit` calls (whether they return or raise) and `reset` calls. -/
inductive Reachable : RateLimiter → Prop where
  | init (m w : ℤ) (rl : RateLimiter) :
      RateLimiter.init m w = .ok rl → Reachable rl
  | check (rl : RateLimiter) (identifier : String) (now : ℚ) :
      Reachable rl → Reachable (rl.check_rate_limit identifier now).2
  | reset (rl : RateLimiter) (identifier : String) :
      Reachable rl → Reachable (rl.reset identifier)

/-- A concrete limiter used to evaluate the theorems: quota 1, window 10 s,
identifier `"u"` holding one request at time 0. -/
def sampleRL : RateLimiter :=
  { max_requests := 1, time_window := 10,
    requests := fun k => if k = "u" then some [(0 : ℚ)] else none }

/-- A concrete freshly-constructed limiter: quota 2, window 10 s, empty map. -/
def freshRL : RateLimiter :=
  { max_requests := 2, time_window := 10, requests := fun _ => none }

/-! ### Basic lemmas about the embedded operations -/

lemma pyInt_of_nonneg {q : ℚ} (h : 0 ≤ q) : pyInt q = ⌊q⌋ := by
  simp [pyInt, not_lt.mpr h]

lemma pyInt_intCast (n : ℤ) : pyInt (n : ℚ) = n := by
  rcases lt_or_le (n : ℚ) 0 with h | h
  · simp [pyInt, h]
  · simp [pyInt, not_lt.mpr h]

lemma pyInt_add_one_pos {q : ℚ} (h : 0 < q) : 0 < pyInt q + 1 := by
  rw [pyInt_of_nonneg h.le]
  have : (0 : ℤ) ≤ ⌊q⌋ := Int.floor_nonneg.mpr h.le
  omega

lemma mapSet_same (m : String → Option (List ℚ)) (k : String)
    (v : Option (List ℚ)) : mapSet m k v k = v := by
  simp [mapSet]

lemma mapSet_other (m : String → Option (List ℚ)) (k : String)
    (v : Option (List ℚ)) {x : String} (h : x ≠ k) : mapSet m k v x = m x := by
  simp [mapSet, h]

lemma purge_cons_expired {now : ℚ} {W : ℤ} {t : ℚ} {ts : List ℚ}
    (h : (W : ℚ) ≤ now - t) : purge now W (t :: ts) = purge now W ts := by
  simp [purge, h]

lemma purge_cons_fresh {now : ℚ} {W : ℤ} {t : ℚ} {ts : List ℚ}
    (h : now - t < (W : ℚ)) : purge now W (t :: ts) = t :: ts := by
  simp [purge, not_le.mpr h]

lemma purge_all_expired {now : ℚ} {W : ℤ} {l : List ℚ}
    (h : ∀ t ∈ l, (W : ℚ) ≤ now - t) : purge now W l = [] := by
  induction l with
  | nil => rfl
  | cons t ts ih =>
      rw [purge_cons_expired (h t (List.mem_cons_self t ts))]
      exact ih fun u hu => h u (List.mem_cons_of_mem t hu)

lemma purge_head_fresh {now : ℚ} {W : ℤ} {l : List ℚ} {t : ℚ} {ts : List ℚ}
    (h : purge now W l = t :: ts) : now - t < (W : ℚ) := by
  induction l with
  | nil => simp [purge] at h
  | cons u us ih =>
      by_cases hu : (W : ℚ) ≤ now - u
      · exact ih (by rwa [purge_cons_expired hu] at h)
      · rw [purge_cons_fresh (not_le.mp hu)] at h
        cases h
        exact not_le.mp hu

lemma purge_length_le (now : ℚ) (W : ℤ) (l : List ℚ) :
    (purge now W l).length ≤ l.length := by
  induction l with
  | nil => simp [purge]
  | cons t ts ih =>
      by_cases h : (W : ℚ) ≤ now - t
      · rw [purge_cons_expired h]
        exact ih.trans (Nat.le_succ _)
      · rw [purge_cons_fresh (not_le.mp h)]

lemma purge_decomp (now : ℚ) (W : ℤ) (l : List ℚ) :
    ∃ p, l = p ++ purge now W l ∧ ∀ t ∈ p, (W : ℚ) ≤ now - t := by
  induction l with
  | nil => exact ⟨[], by simp [purge]⟩
  | cons t ts ih =>
      by_cases h : (W : ℚ) ≤ now - t
      · obtain ⟨p, hp, hall⟩ := ih
        refine ⟨t :: p, ?_, ?_⟩
        · rw [purge_cons_expired h]
          simpa using hp
        · intro u hu
          rcases List.mem_cons.mp hu with rfl | hu
          · exact h
          · exact hall u hu
      · exact ⟨[], by simp [purge_cons_fresh (not_le.mp h)]⟩

lemma purge_mem_fresh_of_sorted {now : ℚ} {W : ℤ} {l : List ℚ}
    (hs : List.Sorted (· ≤ ·) l) :
    ∀ t ∈ purge now W l, now - t < (W : ℚ) := by
  intro t ht
  rcases hp : purge now W l with _ | ⟨h₀, rest⟩
  · rw [hp] at ht
    simp at ht
  · have hhead : now - h₀ < (W : ℚ) := purge_head_fresh hp
    obtain ⟨p, hdec, _⟩ := purge_decomp now W l
    have hs' : List.Sorted (· ≤ ·) (purge now W l) := by
      rw [hdec] at hs
      exact hs.sublist (List.sublist_append_right p _)
    rw [hp] at hs' ht
    rcases List.mem_cons.mp ht with rfl | ht
    · exact hhead
    · have hle : h₀ ≤ t := (List.pairwise_cons.mp hs').1 t ht
      linarith

/-! ### Characterisation of each branch of `check_rate_limit` -/

lemma check_empty_id (rl : RateLimiter) (now : ℚ) :
    rl.check_rate_limit "" now =
      (.error (.valueError "identifier cannot be None or empty"), rl) := by
  simp [RateLimiter.check_rate_limit]

lemma check_allows {rl : RateLimiter} {identifier : String} {now : ℚ}
    {P : List ℚ} (hid : identifier ≠ "")
    (hpu : purge now rl.time_window ((rl.requests identifier).getD []) = P)
    (hlen : (P.length : ℤ) < rl.max_requests) :
    rl.check_rate_limit identifier now =
      (.ok (true, 0),
       { rl with requests :=
           mapSet rl.requests identifier (some (P ++ [now])) }) := by
  simp only [RateLimiter.check_rate_limit, hid, if_false, hpu,
    not_le.mpr hlen, ite_false]

lemma check_deny {rl : RateLimiter} {identifier : String} {now : ℚ}
    {t₀ : ℚ} {P : List ℚ} (hid : identifier ≠ "")
    (hpu : purge now rl.time_window ((rl.requests identifier).getD [])
           = t₀ :: P)
    (hlen : rl.max_requests ≤ ((t₀ :: P).length : ℤ)) :
    rl.check_rate_limit identifier now =
      (.ok (false, pyInt ((rl.time_window : ℚ) - (now - t₀)) + 1),
       { rl with requests :=
           mapSet rl.requests identifier (some (t₀ :: P)) }) := by
  have hlen' : rl.max_requests ≤ ((P.length + 1 : ℕ) : ℤ) := by
    simpa using hlen
  simp only [RateLimiter.check_rate_limit, hid, if_false, hpu,
    List.length_cons, hlen', ite_true]

lemma check_preserves_config (rl : RateLimiter) (identifier : String)
    (now : ℚ) :
    (rl.check_rate_limit identifier now).2.max_requests = rl.max_requests ∧
    (rl.check_rate_limit identifier now).2.time_window = rl.time_window := by
  unfold RateLimiter.check_rate_limit
  dsimp only
  split
  · exact ⟨rfl, rfl⟩
  · split
    · split <;> exact ⟨rfl, rfl⟩
    · exact ⟨rfl, rfl⟩

lemma check_other_id (rl : RateLimiter) (identifier : String) (now : ℚ)
    {b : String} (hb : b ≠ identifier) :
    (rl.check_rate_limit identifier now).2.requests b = rl.requests b := by
  unfold RateLimiter.check_rate_limit
  dsimp only
  split
  · rfl
  · split
    · split <;> exact mapSet_other _ _ _ hb
    · exact mapSet_other _ _ _ hb

lemma reset_preserves_config (rl : RateLimiter) (identifier : String) :
    (rl.reset identifier).max_requests = rl.max_requests ∧
    (rl.reset identifier).time_window = rl.time_window := by
  unfold RateLimiter.reset
  split <;> exact ⟨rfl, rfl⟩

lemma reset_other_id (rl : RateLimiter) (identifier : String)
    {b : String} (hb : b ≠ identifier) :
    (rl.reset identifier).requests b = rl.requests b := by
  unfold RateLimiter.reset
  split
  · exact mapSet_other _ _ _ hb
  · rfl

lemma reset_same_id (rl : RateLimiter) (identifier : String) :
    (rl.reset identifier).requests identifier = none := by
  unfold RateLimiter.reset
  split
  · exact mapSet_same _ _ _
  · rename_i h
    exact Option.not_isSome_iff_eq_none.mp h

/-- The outcome (not the state) of a check depends only on the identifier's
own log and the configuration. -/
lemma check_result_congr {rl₁ rl₂ : RateLimiter} (identifier : String)
    (now : ℚ) (hreq : rl₁.requests identifier = rl₂.requests identifier)
    (hmax : rl₁.max_requests = rl₂.max_requests)
    (hwin : rl₁.time_window = rl₂.time_window) :
    (rl₁.check_rate_limit identifier now).1 =
      (rl₂.check_rate_limit identifier now).1 := by
  unfold RateLimiter.check_rate_limit
  dsimp only
  rw [hreq, hmax, hwin]
  split
  · rfl
  · split
    · split <;> rfl
    · rfl

/-! ### Runs of consecutive checks -/

lemma runChecks_cons (rl : RateLimiter) (identifier : String) (t : ℚ)
    (ts : List ℚ) :
    runChecks rl identifier (t :: ts) =
      ((rl.check_rate_limit identifier t).1 ::
         (runChecks (rl.check_rate_limit identifier t).2 identifier ts).1,
       (runChecks (rl.check_rate_limit identifier t).2 identifier ts).2) :=
  rfl

lemma runChecks_append (rl : RateLimiter) (identifier : String)
    (xs ys : List ℚ) :
    runChecks rl identifier (xs ++ ys) =
      ((runChecks rl identifier xs).1 ++
         (runChecks (runChecks rl identifier xs).2 identifier ys).1,
       (runChecks (runChecks rl identifier xs).2 identifier ys).2) := by
  induction xs generalizing rl with
  | nil => simp [runChecks]
  | cons t ts ih =>
      simp only [List.cons_append, runChecks_cons, ih]

/-- A run in which every call is admitted: starting from a non-empty log
whose head stays inside the window for every call time, with enough quota
for the whole run, every call returns `(True, 0)` and the call times are
appended in order. -/
lemma runChecks_admit_all {identifier : String} (hid : identifier ≠ "") :
    ∀ (ts : List ℚ) (rl : RateLimiter) (h₀ : ℚ) (L : List ℚ),
      (rl.requests identifier).getD [] = h₀ :: L →
      (∀ t ∈ ts, t - h₀ < (rl.time_window : ℚ)) →
      (((h₀ :: L).length + ts.length : ℕ) : ℤ) ≤ rl.max_requests →
      (runChecks rl identifier ts).1 =
        List.replicate ts.length (.ok (true, 0)) ∧
      ((runChecks rl identifier ts).2.requests identifier).getD []
        = h₀ :: (L ++ ts) ∧
      (∀ b, b ≠ identifier →
        (runChecks rl identifier ts).2.requests b = rl.requests b) ∧
      (runChecks rl identifier ts).2.max_requests = rl.max_requests ∧
      (runChecks rl identifier ts).2.time_window = rl.time_window := by
  intro ts
  induction ts with
  | nil =>
      intro rl h₀ L hlog _ _
      simpa [runChecks] using hlog
  | cons t rest ih =>
      intro rl h₀ L hlog hfresh hlen
      have hfr : t - h₀ < (rl.time_window : ℚ) :=
        hfresh t (List.mem_cons_self t rest)
      have hpu : purge t rl.time_window ((rl.requests identifier).getD [])
          = h₀ :: L := by
        rw [hlog]
        exact purge_cons_fresh (by linarith)
      have hlt : (((h₀ :: L).length : ℕ) : ℤ) < rl.max_requests := by
        have : ((h₀ :: L).length + (rest.length + 1) : ℕ) =
            ((h₀ :: L).length + rest.length.succ : ℕ) := rfl
        simp only [List.length_cons] at hlen ⊢
        omega
      have hstep := check_allows hid hpu hlt
      set rl' := (rl.check_rate_limit identifier t).2 with hrl'
      have hres1 : (rl.check_rate_limit identifier t).1 = .ok (true, 0) := by
        rw [hstep]
      have hreq' : (rl'.requests identifier).getD [] = h₀ :: (L ++ [t]) := by
        rw [hrl', hstep]
        simp [mapSet_same]
      have hmax' : rl'.max_requests = rl.max_requests := by
        rw [hrl', hstep]
      have hwin' : rl'.time_window = rl.time_window := by
        rw [hrl', hstep]
      have hfresh' : ∀ u ∈ rest, u - h₀ < (rl'.time_window : ℚ) := by
        intro u hu
        rw [hwin']
        exact hfresh u (List.mem_cons_of_mem t hu)
      have hlen' : (((h₀ :: (L ++ [t])).length + rest.length : ℕ) : ℤ)
          ≤ rl'.max_requests := by
        rw [hmax']
        simp only [List.length_cons, List.length_append, List.length_nil]
          at hlen ⊢
        push_cast at hlen ⊢
        linarith
      obtain ⟨ih1, ih2, ih3, ih4, ih5⟩ := ih rl' h₀ (L ++ [t]) hreq' hfresh' hlen'
      refine ⟨?_, ?_, ?_, ?_, ?_⟩
      · rw [runChecks_cons]
        simp only [hres1, ih1, List.length_cons, List.replicate_succ]
      · rw [runChecks_cons]
        simpa [List.append_assoc] using ih2
      · intro b hb
        rw [runChecks_cons]
        dsimp only
        rw [ih3 b hb, hrl', hstep]
        exact mapSet_other _ _ _ hb
      · rw [runChecks_cons]
        dsimp only
        rw [ih4, hmax']
      · rw [runChecks_cons]
        dsimp only
        rw [ih5, hwin']

/-- A run in which every call is denied: a saturated log whose head is
still inside the window at call time `now` stays unchanged, and every call
at time `now` returns the same `(False, retry_after)`. -/
lemma runChecks_deny_all {identifier : String} (hid : identifier ≠ "") :
    ∀ (k : ℕ) (rl : RateLimiter) (now h₀ : ℚ) (P : List ℚ),
      (rl.requests identifier).getD [] = h₀ :: P →
      now - h₀ < (rl.time_window : ℚ) →
      rl.max_requests ≤ (((h₀ :: P).length : ℕ) : ℤ) →
      (runChecks rl identifier (List.replicate k now)).1 =
        List.replicate k
          (.ok (false, pyInt ((rl.time_window : ℚ) - (now - h₀)) + 1)) ∧
      ((runChecks rl identifier (List.replicate k now)).2.requests
          identifier).getD [] = h₀ :: P ∧
      (∀ b, b ≠ identifier →
        (runChecks rl identifier (List.replicate k now)).2.requests b
          = rl.requests b) ∧
      (runChecks rl identifier (List.replicate k now)).2.max_requests
        = rl.max_requests ∧
      (runChecks rl identifier (List.replicate k now)).2.time_window
        = rl.time_window := by
  intro k
  induction k with
  | zero =>
      intro rl now h₀ P hlog _ _
      simpa [runChecks] using hlog
  | succ k ih =>
      intro rl now h₀ P hlog hfr hlen
      have hpu : purge now rl.time_window ((rl.requests identifier).getD [])
          = h₀ :: P := by
        rw [hlog]
        exact purge_cons_fresh hfr
      have hstep := check_deny hid hpu hlen
      set rl' := (rl.check_rate_limit identifier now).2 with hrl'
      have hres1 : (rl.check_rate_limit identifier now).1 =
          .ok (false, pyInt ((rl.time_window : ℚ) - (now - h₀)) + 1) := by
        rw [hstep]
      have hreq' : (rl'.requests identifier).getD [] = h₀ :: P := by
        rw [hrl', hstep]
        simp [mapSet_same]
      have hmax' : rl'.max_requests = rl.max_requests := by
        rw [hrl', hstep]
      have hwin' : rl'.time_window = rl.time_window := by
        rw [hrl', hstep]
      obtain ⟨ih1, ih2, ih3, ih4, ih5⟩ :=
        ih rl' now h₀ P hreq' (hwin' ▸ hfr) (hmax' ▸ hlen)
      refine ⟨?_, ?_, ?_, ?_, ?_⟩
      · rw [List.replicate_succ, runChecks_cons]
        simp only [hres1, List.replicate_succ]
        rw [ih1, hwin']
      · rw [List.replicate_succ, runChecks_cons]
        exact ih2
      · intro b hb
        rw [List.replicate_succ, runChecks_cons]
        dsimp only
        rw [ih3 b hb, hrl', hstep]
        exact mapSet_other _ _ _ hb
      · rw [List.replicate_succ, runChecks_cons]
        dsimp only
        rw [ih4, hmax']
      · rw [List.replicate_succ, runChecks_cons]
        dsimp only
        rw [ih5, hwin']

lemma check_sat_empty {rl : RateLimiter} {identifier : String} {now : ℚ}
    (hid : identifier ≠ "")
    (hpu : purge now rl.time_window ((rl.requests identifier).getD []) = [])
    (hlen : rl.max_requests ≤ 0) :
    rl.check_rate_limit identifier now =
      (.error .indexError,
       { rl with requests := mapSet rl.requests identifier (some []) }) := by
  simp only [RateLimiter.check_rate_limit, hid, if_false, hpu,
    List.length_nil, Nat.cast_zero, hlen, ite_true]

/-! ### The claims -/

/-- Claim C6: construction fails with the configuration `ValueError`
(the spec's `InvalidConfiguration`) exactly when `max_requests <= 0` or
`time_window <= 0`; with both strictly positive it succeeds and returns a
limiter with the given configuration and an empty identifier map. -/
theorem C6_construction_validation (max_requests time_window : ℤ) :
    ((max_requests ≤ 0 ∨ time_window ≤ 0) ↔
      ∃ msg, RateLimiter.init max_requests time_window
        = .error (.valueError msg)) ∧
    (0 < max_requests → 0 < time_window →
      RateLimiter.init max_requests time_window =
        .ok { max_requests := max_requests, time_window := time_window,
              requests := fun _ => none }) := by
  constructor
  · constructor
    · intro h
      unfold RateLimiter.init
      rcases h with h | h
      · exact ⟨_, by rw [if_pos h]⟩
      · by_cases h1 : max_requests ≤ 0
        · exact ⟨_, by rw [if_pos h1]⟩
        · exact ⟨_, by rw [if_neg h1, if_pos h]⟩
    · rintro ⟨msg, hmsg⟩
      by_contra hcon
      push_neg at hcon
      obtain ⟨h1, h2⟩ := hcon
      unfold RateLimiter.init at hmsg
      rw [if_neg (not_le.mpr h1), if_neg (not_le.mpr h2)] at hmsg
      exact absurd hmsg (by simp)
  · intro h1 h2
    unfold RateLimiter.init
    rw [if_neg (not_le.mpr h1), if_neg (not_le.mpr h2)]

/-- Claim C7: a check with the empty (Python `None`/empty) identifier always
raises the identifier `ValueError` (the spec's `InvalidIdentifier`) and
leaves the limiter state exactly as it was; for a non-empty identifier on a
validly configured limiter the check never raises — quota exhaustion is
reported through the boolean result, not an error. -/
theorem C7_invalid_identifier (rl : RateLimiter) (now now' : ℚ) :
    rl.check_rate_limit "" now =
      (.error (.valueError "identifier cannot be None or empty"), rl) ∧
    ∀ identifier, identifier ≠ "" → 1 ≤ rl.max_requests →
      ∃ b r rl', rl.check_rate_limit identifier now' = (.ok (b, r), rl') := by
  refine ⟨check_empty_id rl now, ?_⟩
  intro identifier hid hmax
  rcases hp : purge now' rl.time_window ((rl.requests identifier).getD [])
    with _ | ⟨t₀, P⟩
  · refine ⟨true, 0, _, check_allows hid hp ?_⟩
    simp only [List.length_nil, Nat.cast_zero]
    omega
  · by_cases hc : rl.max_requests ≤ (((t₀ :: P).length : ℕ) : ℤ)
    · exact ⟨false, _, _, check_deny hid hp hc⟩
    · exact ⟨true, 0, _, check_allows hid hp (not_le.mp hc)⟩

/-- Claim C2: when the purged log is already at quota, the check denies with
`retry_after = floor(time_window - (now - oldest)) + 1`, a strictly positive
integer, and the stored log is exactly the purged log — nothing is
appended for the denied request. -/
theorem C2_denial_retry_after (rl : RateLimiter) (identifier : String)
    (now : ℚ) (hid : identifier ≠ "") (hmax : 1 ≤ rl.max_requests)
    (hsat : rl.max_requests ≤
      ((purge now rl.time_window
          ((rl.requests identifier).getD [])).length : ℤ)) :
    ∃ oldest P,
      purge now rl.time_window ((rl.requests identifier).getD [])
        = oldest :: P ∧
      rl.check_rate_limit identifier now =
        (.ok (false, ⌊(rl.time_window : ℚ) - (now - oldest)⌋ + 1),
         { rl with requests :=
             mapSet rl.requests identifier (some (oldest :: P)) }) ∧
      0 < ⌊(rl.time_window : ℚ) - (now - oldest)⌋ + 1 := by
  rcases hp : purge now rl.time_window ((rl.requests identifier).getD [])
    with _ | ⟨oldest, P⟩
  · rw [hp] at hsat
    simp only [List.length_nil, Nat.cast_zero] at hsat
    omega
  · rw [hp] at hsat
    have hfr : now - oldest < (rl.time_window : ℚ) := purge_head_fresh hp
    have hpos : (0 : ℚ) < (rl.time_window : ℚ) - (now - oldest) := by linarith
    have hfl : pyInt ((rl.time_window : ℚ) - (now - oldest)) =
        ⌊(rl.time_window : ℚ) - (now - oldest)⌋ := pyInt_of_nonneg hpos.le
    refine ⟨oldest, P, rfl, ?_, ?_⟩
    · rw [check_deny hid hp hsat, hfl]
    · rw [← hfl]
      exact pyInt_add_one_pos hpos

/-- Witness for C2 on `sampleRL`: the call for `"u"` at time 3 is denied
with `retry_after = 8`. -/
theorem C2_denial_retry_after_witness :
    ∃ oldest P,
      purge 3 sampleRL.time_window ((sampleRL.requests "u").getD [])
        = oldest :: P ∧
      sampleRL.check_rate_limit "u" 3 =
        (.ok (false, ⌊(sampleRL.time_window : ℚ) - (3 - oldest)⌋ + 1),
         { sampleRL with
             requests := mapSet sampleRL.requests "u" (some (oldest :: P)) }) ∧
      0 < ⌊(sampleRL.time_window : ℚ) - (3 - oldest)⌋ + 1 :=
  C2_denial_retry_after sampleRL "u" 3 (by decide) (by norm_num [sampleRL])
    (by norm_num [sampleRL, purge])

/-- Claim C4: once every stored timestamp of an identifier is at least one
whole window old, a check for that identifier is admitted with `(True, 0)`
— the expired entries no longer count against the quota, even if the quota
had been exhausted. -/
theorem C4_window_expiry_readmits (rl : RateLimiter) (identifier : String)
    (now : ℚ) (hid : identifier ≠ "") (hmax : 1 ≤ rl.max_requests)
    (hall : ∀ t ∈ (rl.requests identifier).getD [],
      (rl.time_window : ℚ) ≤ now - t) :
    rl.check_rate_limit identifier now =
      (.ok (true, 0),
       { rl with requests := mapSet rl.requests identifier (some [now]) }) := by
  have hpu : purge now rl.time_window ((rl.requests identifier).getD [])
      = [] := purge_all_expired hall
  have h := check_allows hid hpu
    (by simp only [List.length_nil, Nat.cast_zero]; omega)
  simpa using h

/-- Witness for C4 on `sampleRL`: identifier `"u"` has exhausted its quota
of 1 with an entry at time 0; at time 20 the entry is a full window old and
the call is admitted. -/
theorem C4_window_expiry_readmits_witness :
    sampleRL.check_rate_limit "u" 20 =
      (.ok (true, 0),
       { sampleRL with
           requests := mapSet sampleRL.requests "u" (some [20]) }) :=
  C4_window_expiry_readmits sampleRL "u" 20 (by decide)
    (by norm_num [sampleRL]) (by norm_num [sampleRL])

/-- Claim C3: a check trims from the identifier's log exactly the leading
expired timestamps, stopping at the first one still inside the window; with
the log chronologically ordered, every timestamp that remains when the
admission decision is read — and every timestamp stored after the call —
is strictly inside the window. -/
theorem C3_purge_is_lazy_trim (rl : RateLimiter) (identifier : String)
    (now : ℚ) (hid : identifier ≠ "") (hW : 0 < rl.time_window)
    (hsorted : List.Sorted (· ≤ ·) ((rl.requests identifier).getD [])) :
    ∃ p, (rl.requests identifier).getD []
        = p ++ purge now rl.time_window ((rl.requests identifier).getD []) ∧
      (∀ t ∈ p, (rl.time_window : ℚ) ≤ now - t) ∧
      (∀ t ∈ purge now rl.time_window ((rl.requests identifier).getD []),
        now - t < (rl.time_window : ℚ)) ∧
      ∀ t ∈ ((rl.check_rate_limit identifier now).2.requests
          identifier).getD [], now - t < (rl.time_window : ℚ) := by
  obtain ⟨p, hdec, hexp⟩ := purge_decomp now rl.time_window
    ((rl.requests identifier).getD [])
  have hfresh := @purge_mem_fresh_of_sorted now rl.time_window _ hsorted
  have hnow : now - now < (rl.time_window : ℚ) := by
    rw [sub_self]
    exact_mod_cast hW
  refine ⟨p, hdec, hexp, hfresh, ?_⟩
  intro t ht
  rcases hp : purge now rl.time_window ((rl.requests identifier).getD [])
    with _ | ⟨t₀, P⟩
  · by_cases hc : rl.max_requests ≤ 0
    · rw [check_sat_empty hid hp hc] at ht
      simp [mapSet_same] at ht
    · rw [check_allows hid hp
        (by simp only [List.length_nil, Nat.cast_zero]; omega)] at ht
      simp only [mapSet_same, Option.getD_some, List.nil_append,
        List.mem_singleton] at ht
      subst ht
      exact hnow
  · by_cases hc : rl.max_requests ≤ (((t₀ :: P).length : ℕ) : ℤ)
    · rw [check_deny hid hp hc] at ht
      simp only [mapSet_same, Option.getD_some] at ht
      exact hfresh t (hp ▸ ht)
    · rw [check_allows hid hp (not_le.mp hc)] at ht
      simp only [mapSet_same, Option.getD_some, List.mem_append,
        List.mem_singleton] at ht
      rcases ht with ht | ht
      · exact hfresh t (hp ▸ ht)
      · subst ht
        exact hnow

/-- Witness for C3 on `sampleRL` at time 3: the log `[0]` is sorted and
nothing is expired. -/
theorem C3_purge_is_lazy_trim_witness :
    ∃ p, (sampleRL.requests "u").getD []
        = p ++ purge 3 sampleRL.time_window ((sampleRL.requests "u").getD []) ∧
      (∀ t ∈ p, (sampleRL.time_window : ℚ) ≤ 3 - t) ∧
      (∀ t ∈ purge 3 sampleRL.time_window ((sampleRL.requests "u").getD []),
        3 - t < (sampleRL.time_window : ℚ)) ∧
      ∀ t ∈ ((sampleRL.check_rate_limit "u" 3).2.requests "u").getD [],
        3 - t < (sampleRL.time_window : ℚ) :=
  C3_purge_is_lazy_trim sampleRL "u" 3 (by decide) (by norm_num [sampleRL])
    (by simp [sampleRL])

lemma check_post_len (rl : RateLimiter) (identifier : String) (now : ℚ)
    (hlen : ((((rl.requests identifier).getD []).length : ℕ) : ℤ)
      ≤ rl.max_requests) :
    (((((rl.check_rate_limit identifier now).2.requests
        identifier).getD []).length : ℕ) : ℤ) ≤ rl.max_requests := by
  by_cases hid : identifier = ""
  · subst hid
    rw [check_empty_id]
    exact hlen
  · have hple := purge_length_le now rl.time_window
      ((rl.requests identifier).getD [])
    rcases hp : purge now rl.time_window ((rl.requests identifier).getD [])
      with _ | ⟨t₀, P⟩
    · by_cases hc : rl.max_requests ≤ 0
      · rw [check_sat_empty hid hp hc]
        simp only [mapSet_same, Option.getD_some, List.length_nil,
          Nat.cast_zero]
        omega
      · rw [check_allows hid hp
          (by simp only [List.length_nil, Nat.cast_zero]; omega)]
        simp only [mapSet_same, Option.getD_some, List.nil_append,
          List.length_singleton, Nat.cast_one]
        omega
    · rw [hp] at hple
      have hple' : (((t₀ :: P).length : ℕ) : ℤ) ≤
          ((((rl.requests identifier).getD []).length : ℕ) : ℤ) := by
        exact_mod_cast hple
      by_cases hc : rl.max_requests ≤ (((t₀ :: P).length : ℕ) : ℤ)
      · rw [check_deny hid hp hc]
        simp only [mapSet_same, Option.getD_some]
        omega
      · rw [check_allows hid hp (not_le.mp hc)]
        simp only [mapSet_same, Option.getD_some, List.length_append,
          List.length_singleton]
        push_cast
        push_cast at hc
        omega

/-- Claim C5: in every state reachable by construction, checks and resets,
every identifier's stored log has length at most `max_requests`. -/
theorem C5_log_length_invariant (rl : RateLimiter) (h : Reachable rl) :
    ∀ identifier,
      ((((rl.requests identifier).getD []).length : ℕ) : ℤ)
        ≤ rl.max_requests := by
  suffices hs : 0 < rl.max_requests ∧ ∀ identifier,
      ((((rl.requests identifier).getD []).length : ℕ) : ℤ)
        ≤ rl.max_requests by
    exact hs.2
  induction h with
  | init m w rl₀ h0 =>
      unfold RateLimiter.init at h0
      by_cases h1 : m ≤ 0
      · rw [if_pos h1] at h0
        exact absurd h0 (by simp)
      · by_cases h2 : w ≤ 0
        · rw [if_neg h1, if_pos h2] at h0
          exact absurd h0 (by simp)
        · rw [if_neg h1, if_neg h2] at h0
          injection h0 with h0
          subst h0
          refine ⟨by show 0 < m; omega, ?_⟩
          intro identifier
          show ((((none : Option (List ℚ)).getD []).length : ℕ) : ℤ) ≤ m
          simp
          omega
  | check rl₀ identifier now hr ih =>
      refine ⟨?_, ?_⟩
      · rw [(check_preserves_config rl₀ identifier now).1]
        exact ih.1
      · intro b
        rw [(check_preserves_config rl₀ identifier now).1]
        by_cases hb : b = identifier
        · subst hb
          exact check_post_len rl₀ b now (ih.2 b)
        · rw [check_other_id rl₀ identifier now hb]
          exact ih.2 b
  | reset rl₀ identifier hr ih =>
      refine ⟨?_, ?_⟩
      · rw [(reset_preserves_config rl₀ identifier).1]
        exact ih.1
      · intro b
        rw [(reset_preserves_config rl₀ identifier).1]
        by_cases hb : b = identifier
        · subst hb
          rw [reset_same_id]
          simp
          omega
        · rw [reset_other_id rl₀ identifier hb]
          exact ih.2 b

/-- Witness for C5: the freshly constructed limiter `freshRL` is reachable
and satisfies the bound for identifier `"u"`. -/
theorem C5_log_length_invariant_witness :
    ((((freshRL.requests "u").getD []).length : ℕ) : ℤ)
      ≤ freshRL.max_requests :=
  C5_log_length_invariant freshRL
    (Reachable.init 2 10 freshRL (by norm_num [RateLimiter.init, freshRL]))
    "u"

/-- Claim C9: a check or reset on identifier `a` leaves identifier `b`'s
log untouched and never changes the outcome a later check for `b` would
produce at the same time. -/
theorem C9_identifier_independence (rl : RateLimiter) (a b : String)
    (now now' : ℚ) (hab : b ≠ a) :
    (rl.check_rate_limit a now).2.requests b = rl.requests b ∧
    (rl.reset a).requests b = rl.requests b ∧
    ((rl.check_rate_limit a now).2.check_rate_limit b now').1 =
      (rl.check_rate_limit b now').1 ∧
    ((rl.reset a).check_rate_limit b now').1 =
      (rl.check_rate_limit b now').1 := by
  refine ⟨check_other_id rl a now hab, reset_other_id rl a hab, ?_, ?_⟩
  · exact check_result_congr b now' (check_other_id rl a now hab)
      (check_preserves_config rl a now).1 (check_preserves_config rl a now).2
  · exact check_result_congr b now' (reset_other_id rl a hab)
      (reset_preserves_config rl a).1 (reset_preserves_config rl a).2

/-- Witness for C9 on `sampleRL` with `a = "u"`, `b = "v"`. -/
theorem C9_identifier_independence_witness :
    (sampleRL.check_rate_limit "u" 1).2.requests "v" = sampleRL.requests "v" ∧
    (sampleRL.reset "u").requests "v" = sampleRL.requests "v" ∧
    ((sampleRL.check_rate_limit "u" 1).2.check_rate_limit "v" 2).1 =
      (sampleRL.check_rate_limit "v" 2).1 ∧
    ((sampleRL.reset "u").check_rate_limit "v" 2).1 =
      (sampleRL.check_rate_limit "v" 2).1 :=
  C9_identifier_independence sampleRL "u" "v" 1 2 (by decide)

/-- Claim C8: `reset` removes the identifier's whole log (restoring the
never-seen state), is a no-op on an identifier with no log, and after a
reset a full quota of `max_requests = n + 1` checks inside one window is
admitted in its entirety, regardless of prior history. -/
theorem C8_reset_restores_quota (rl : RateLimiter) (identifier : String)
    (n : ℕ) (t₀ : ℚ) (ts : List ℚ) (hid : identifier ≠ "")
    (hmax : rl.max_requests = (n : ℤ) + 1) (hts : ts.length = n)
    (hfresh : ∀ t ∈ ts, t - t₀ < (rl.time_window : ℚ)) :
    (rl.reset identifier).requests identifier = none ∧
    (rl.requests identifier = none → rl.reset identifier = rl) ∧
    (runChecks (rl.reset identifier) identifier (t₀ :: ts)).1 =
      List.replicate (n + 1) (.ok (true, 0)) := by
  refine ⟨reset_same_id rl identifier, ?_, ?_⟩
  · intro h
    unfold RateLimiter.reset
    rw [h]
    rfl
  · set R := rl.reset identifier with hR
    have hRlog : (R.requests identifier).getD [] = [] := by
      rw [hR, reset_same_id]
      rfl
    have hRmax : R.max_requests = rl.max_requests :=
      (reset_preserves_config rl identifier).1
    have hRwin : R.time_window = rl.time_window :=
      (reset_preserves_config rl identifier).2
    have hpu₀ : purge t₀ R.time_window ((R.requests identifier).getD [])
        = [] := by
      rw [hRlog]
      simp [purge]
    have hstep₀ := check_allows hid hpu₀
      (by simp only [List.length_nil, Nat.cast_zero, hRmax, hmax]; omega)
    set rl₁ := (R.check_rate_limit identifier t₀).2 with hrl₁
    have h₁log : (rl₁.requests identifier).getD [] = [t₀] := by
      rw [hrl₁, hstep₀]
      simp [mapSet_same]
    have h₁max : rl₁.max_requests = rl.max_requests := by
      rw [hrl₁, hstep₀]
      exact hRmax
    have h₁win : rl₁.time_window = rl.time_window := by
      rw [hrl₁, hstep₀]
      exact hRwin
    obtain ⟨hres, -, -, -, -⟩ := runChecks_admit_all hid ts rl₁ t₀ []
      h₁log (by rw [h₁win]; exact hfresh)
      (by simp only [List.length_cons, List.length_nil, h₁max, hmax, hts]
          push_cast
          omega)
    rw [runChecks_cons]
    dsimp only
    rw [← hrl₁, hres, hts]
    have hhd : (R.check_rate_limit identifier t₀).1 = .ok (true, 0) := by
      rw [hstep₀]
    rw [hhd, List.replicate_succ]

/-- Witness for C8 on `sampleRL` (quota 1): reset `"u"`, then one check at
time 100 is admitted. -/
theorem C8_reset_restores_quota_witness :
    (sampleRL.reset "u").requests "u" = none ∧
    (sampleRL.requests "u" = none → sampleRL.reset "u" = sampleRL) ∧
    (runChecks (sampleRL.reset "u") "u" (100 :: [])).1 =
      List.replicate (0 + 1) (.ok (true, 0)) :=
  C8_reset_restores_quota sampleRL "u" 0 100 [] (by decide)
    (by norm_num [sampleRL]) rfl (by simp)

/-- Claim C1: with quota `n + 1` and a positive window, starting from a
state where the identifier has no unexpired entries, the first `n + 1`
calls inside one window all return `(True, 0)` and the `(n + 2)`-th call
returns `(False, r)` with `r > 0`. -/
theorem C1_quota_then_denial (rl : RateLimiter) (identifier : String)
    (n : ℕ) (t₀ tf : ℚ) (ts : List ℚ) (hid : identifier ≠ "")
    (hmax : rl.max_requests = (n : ℤ) + 1) (hW : 0 < rl.time_window)
    (hts : ts.length = n)
    (hexp : ∀ t ∈ (rl.requests identifier).getD [],
      (rl.time_window : ℚ) ≤ t₀ - t)
    (hfresh : ∀ t ∈ ts, t - t₀ < (rl.time_window : ℚ))
    (hf : tf - t₀ < (rl.time_window : ℚ)) :
    ∃ r, 0 < r ∧
      (runChecks rl identifier (t₀ :: (ts ++ [tf]))).1 =
        List.replicate (n + 1) (.ok (true, 0)) ++ [.ok (false, r)] := by
  have hpu₀ : purge t₀ rl.time_window ((rl.requests identifier).getD [])
      = [] := purge_all_expired hexp
  have hstep₀ := check_allows hid hpu₀
    (by simp only [List.length_nil, Nat.cast_zero, hmax]; omega)
  set rl₁ := (rl.check_rate_limit identifier t₀).2 with hrl₁
  have h₁log : (rl₁.requests identifier).getD [] = [t₀] := by
    rw [hrl₁, hstep₀]
    simp [mapSet_same]
  have h₁max : rl₁.max_requests = rl.max_requests := by
    rw [hrl₁, hstep₀]
  have h₁win : rl₁.time_window = rl.time_window := by
    rw [hrl₁, hstep₀]
  obtain ⟨hres, hlog₂, -, hmax₂, hwin₂⟩ := runChecks_admit_all hid ts rl₁
    t₀ [] h₁log (by rw [h₁win]; exact hfresh)
    (by simp only [List.length_cons, List.length_nil, h₁max, hmax, hts]
        push_cast
        omega)
  set rl₂ := (runChecks rl₁ identifier ts).2 with hrl₂
  have h₂log : (rl₂.requests identifier).getD [] = t₀ :: ts := by
    rw [hrl₂, hlog₂]
    simp
  have h₂win : rl₂.time_window = rl.time_window := by
    rw [hrl₂, hwin₂, h₁win]
  have h₂max : rl₂.max_requests = rl.max_requests := by
    rw [hrl₂, hmax₂, h₁max]
  have hpuf : purge tf rl₂.time_window ((rl₂.requests identifier).getD [])
      = t₀ :: ts := by
    rw [h₂log]
    exact purge_cons_fresh (by rw [h₂win]; exact hf)
  have hlenf : rl₂.max_requests ≤ (((t₀ :: ts).length : ℕ) : ℤ) := by
    simp only [List.length_cons, hts, h₂max, hmax]
    push_cast
    omega
  have hstepf := check_deny hid hpuf hlenf
  have hpos : (0 : ℚ) < (rl₂.time_window : ℚ) - (tf - t₀) := by
    rw [h₂win]
    linarith
  refine ⟨pyInt ((rl₂.time_window : ℚ) - (tf - t₀)) + 1,
    pyInt_add_one_pos hpos, ?_⟩
  rw [runChecks_cons]
  dsimp only
  rw [← hrl₁, runChecks_append, ← hrl₂, hres, hts]
  have hhd : (rl.check_rate_limit identifier t₀).1 = .ok (true, 0) := by
    rw [hstep₀]
  have htl : (runChecks rl₂ identifier [tf]).1 =
      [.ok (false, pyInt ((rl₂.time_window : ℚ) - (tf - t₀)) + 1)] := by
    rw [runChecks_cons]
    dsimp only
    rw [hstepf]
    rfl
  rw [hhd, htl, List.replicate_succ, List.cons_append]

/-- Witness for C1 on `freshRL` (quota 2): calls for `"a"` at times 0, 1
are admitted and the call at time 2 is denied with a positive retry. -/
theorem C1_quota_then_denial_witness :
    ∃ r, 0 < r ∧
      (runChecks freshRL "a" (0 :: ([1] ++ [2]))).1 =
        List.replicate (1 + 1) (.ok (true, 0)) ++ [.ok (false, r)] :=
  C1_quota_then_denial freshRL "a" 1 0 2 [1] (by decide)
    (by norm_num [freshRL]) (by norm_num [freshRL]) rfl
    (by simp [freshRL]) (by norm_num [freshRL]) (by norm_num [freshRL])

/-- Claim C10: `c > n` same-instant calls for one identifier with quota `n`
(each call atomic under the limiter's lock, hence executed in some
sequential interleaving) admit exactly the first `n` and deny the
remaining `c - n` — never more than `n` admissions. -/
theorem C10_concurrent_exact_quota (c n : ℕ) (rl : RateLimiter)
    (identifier : String) (now : ℚ) (hid : identifier ≠ "")
    (hmax : rl.max_requests = (n : ℤ)) (hn : 1 ≤ n) (hcn : n < c)
    (hW : 0 < rl.time_window)
    (hempty : (rl.requests identifier).getD [] = []) :
    (runChecks rl identifier (List.replicate c now)).1 =
      List.replicate n (.ok (true, 0)) ++
        List.replicate (c - n) (.ok (false, rl.time_window + 1)) := by
  obtain ⟨m, rfl⟩ : ∃ m, n = m + 1 := ⟨n - 1, by omega⟩
  have hWq : (0 : ℚ) < (rl.time_window : ℚ) := by exact_mod_cast hW
  have hsplit : List.replicate c now =
      List.replicate (m + 1) now ++ List.replicate (c - (m + 1)) now := by
    rw [← List.replicate_add]
    congr 1
    omega
  rw [hsplit, runChecks_append, List.replicate_succ, runChecks_cons]
  have hpu₀ : purge now rl.time_window ((rl.requests identifier).getD [])
      = [] := by
    rw [hempty]
    simp [purge]
  have hstep₀ := check_allows hid hpu₀
    (by simp only [List.length_nil, Nat.cast_zero, hmax]; omega)
  set rl₁ := (rl.check_rate_limit identifier now).2 with hrl₁
  have h₁log : (rl₁.requests identifier).getD [] = [now] := by
    rw [hrl₁, hstep₀]
    simp [mapSet_same]
  have h₁max : rl₁.max_requests = rl.max_requests := by
    rw [hrl₁, hstep₀]
  have h₁win : rl₁.time_window = rl.time_window := by
    rw [hrl₁, hstep₀]
  have hfresh₁ : ∀ t ∈ List.replicate m now,
      t - now < (rl₁.time_window : ℚ) := by
    intro t ht
    rw [List.eq_of_mem_replicate ht, sub_self, h₁win]
    exact hWq
  obtain ⟨hres₁, hlog₂, -, hmax₂, hwin₂⟩ := runChecks_admit_all hid
    (List.replicate m now) rl₁ now [] h₁log hfresh₁
    (by simp only [List.length_cons, List.length_nil, List.length_replicate,
          h₁max, hmax]
        push_cast
        omega)
  set rl₂ := (runChecks rl₁ identifier (List.replicate m now)).2 with hrl₂
  have h₂log : (rl₂.requests identifier).getD []
      = now :: List.replicate m now := by
    rw [hrl₂, hlog₂]
    simp
  have h₂win : rl₂.time_window = rl.time_window := by
    rw [hrl₂, hwin₂, h₁win]
  have h₂max : rl₂.max_requests = rl.max_requests := by
    rw [hrl₂, hmax₂, h₁max]
  obtain ⟨hres₂, -, -, -, -⟩ := runChecks_deny_all hid (c - (m + 1)) rl₂
    now now (List.replicate m now) h₂log
    (by rw [sub_self, h₂win]; exact hWq)
    (by simp only [List.length_cons, List.length_replicate, h₂max, hmax]
        push_cast
        omega)
  have hretry : pyInt ((rl₂.time_window : ℚ) - (now - now)) + 1
      = rl.time_window + 1 := by
    rw [sub_self, sub_zero, pyInt_intCast, h₂win]
  have hhd : (rl.check_rate_limit identifier now).1 = .ok (true, 0) := by
    rw [hstep₀]
  dsimp only
  rw [hhd, hres₁, hres₂, hretry, List.length_replicate, List.replicate_succ,
    List.cons_append]

/-- Witness for C10 on `freshRL` (quota 2): three simultaneous calls at
time 0 — two admitted, one denied with retry 11. -/
theorem C10_concurrent_exact_quota_witness :
    (runChecks freshRL "a" (List.replicate 3 0)).1 =
      List.replicate 2 (.ok (true, 0)) ++
        List.replicate (3 - 2) (.ok (false, freshRL.time_window + 1)) :=
  C10_concurrent_exact_quota 3 2 freshRL "a" 0 (by decide)
    (by norm_num [freshRL]) (by norm_num) (by norm_num)
    (by norm_num [freshRL]) (by simp [freshRL])
